import Mathlib

/-!
Verification of the tile-world game core (src/main.py) against its
specification.  The Python module is shallowly embedded below:

* strings naming blocks/items become the enumeration `Kind`;
* a chunk (`list[list[str]]`, always 16×16, indexed `chunk[y][x]`) becomes
  a total function `Fin 16 → Fin 16 → Kind`;
* the module-level `random` generator (reseeded by `generate_chunk` and
  consumed sequentially elsewhere) becomes an abstract deterministic state
  machine `PyLib S`, threaded explicitly through every operation;
* Python floats used for probabilities, velocities and the day clock are
  modelled by `ℚ`; the transcendental helpers `math.hypot` and
  `t ↦ math.sin(2*π*t)` are oracles stored in `PyLib`;
* Python `//` and `%` (floor division / non-negative remainder for the
  positive divisors used by the program) are `Int.ediv` / `Int.emod`;
  C-style truncating division inside pygame (`centerx`, `inflate`) is
  `Int.tdiv`, and Python `int()` applied to a float truncates toward zero.
-/

namespace Spiele

/-- The block/item kinds (string constants of `main.py`): the terrain
blocks plus the three inventory-only kinds `sword`, `gun`, `ammo`. -/
inductive Kind where
  | air | grass | dirt | stone | wood | leaf | water | sword | gun | ammo
deriving DecidableEq

/-- `TILE_SIZE = 32`. -/
abbrev TILE_SIZE : Int := 32
/-- `CHUNK_SIZE = 16`. -/
abbrev CHUNK_SIZE : Nat := 16
/-- `SCREEN_WIDTH = 800`. -/
abbrev SCREEN_WIDTH : Int := 800
/-- `SCREEN_HEIGHT = 600`. -/
abbrev SCREEN_HEIGHT : Int := 600
/-- `LOAD_RADIUS = 2`. -/
abbrev LOAD_RADIUS : Int := 2
/-- `UNLOAD_RADIUS = 3`. -/
abbrev UNLOAD_RADIUS : Int := 3
/-- `DAY_SPEED = 0.001`, idealized as the exact rational `1/1000`.  The
source literal denotes the binary64 double `4611686018427388 * 2^(-62)`
(see `daySpeedF64`), which is strictly larger; the difference is what
makes the double day clock drift (C9). -/
abbrev DAY_SPEED : Rat := 1 / 1000

/-- Python `int()` applied to a rational: truncation toward zero. -/
def truncInt (q : Rat) : Int := q.num.tdiv q.den

/-- The services `main.py` takes from the Python runtime: the module-level
`random` generator (a deterministic state machine over states `S`:
`seed`, `random` uniform in `[0,1)`, `randint a b` inclusive, and
`pickKind` standing for `random.choice(['sword','gun'])`), plus the two
real-valued oracles `hypot x y = math.hypot(x, y)` and
`sin2pi t = math.sin(t * 2 * math.pi)`. -/
structure PyLib (S : Type) where
  seed : Int → S
  random : S → Rat × S
  randint : Int → Int → S → Int × S
  pickKind : S → Kind × S
  hypot : Int → Int → Rat
  sin2pi : Rat → Rat

variable {S : Type}

/-- A chunk: the 16×16 grid `chunk[y][x]` of `generate_chunk`. -/
abbrev Grid := Fin CHUNK_SIZE → Fin CHUNK_SIZE → Kind

/-- `chunk[y][x] = b` on a 16×16 grid. -/
def setCell (g : Grid) (y x : Fin CHUNK_SIZE) (b : Kind) : Grid :=
  fun y' x' => if y' = y ∧ x' = x then b else g y' x'

/-- `chunk[y][x] = b` with integer indices; the assignment only happens
in bounds (the program bounds-checks trunk and leaf writes itself, and
the unchecked side is unreachable there). -/
def setCellI (g : Grid) (yI xI : Int) (b : Kind) : Grid :=
  if h : 0 ≤ yI ∧ yI < (CHUNK_SIZE : Int) ∧ 0 ≤ xI ∧ xI < (CHUNK_SIZE : Int) then
    setCell g ⟨yI.toNat, by omega⟩ ⟨xI.toNat, by omega⟩ b
  else g

/-- `chunk[y][x]` with integer indices (only consulted in bounds). -/
def getCellI (g : Grid) (yI xI : Int) : Kind :=
  if h : 0 ≤ yI ∧ yI < (CHUNK_SIZE : Int) ∧ 0 ≤ xI ∧ xI < (CHUNK_SIZE : Int) then
    g ⟨yI.toNat, by omega⟩ ⟨xI.toNat, by omega⟩
  else Kind.air

/-- Body of the first generation pass for one cell `(x, y)`:
draw `r`; stone below `0.1`, dirt below `0.2`, else grass; forced to air
in the upper half (`y < CHUNK_SIZE // 2`); a surface grass cell turns to
water with probability `0.02` (the extra draw happens only for grass,
mirroring Python's short-circuit `and`). -/
def pass1Cell (L : PyLib S) (x y : Fin CHUNK_SIZE) (gs : Grid × S) : Grid × S :=
  let rs := L.random gs.2
  let block :=
    if rs.1 < 1/10 then Kind.stone
    else if rs.1 < 2/10 then Kind.dirt
    else Kind.grass
  let block := if (y : Nat) < CHUNK_SIZE / 2 then Kind.air else block
  let bs :=
    if block = Kind.grass then
      let rs2 := L.random rs.2
      (if rs2.1 < 2/100 then Kind.water else block, rs2.2)
    else (block, rs.2)
  (setCell gs.1 y x bs.1, bs.2)

/-- First generation pass: `for x in range(16): for y in range(16)`. -/
def pass1 (L : PyLib S) (gs : Grid × S) : Grid × S :=
  (List.finRange CHUNK_SIZE).foldl (fun acc x =>
    (List.finRange CHUNK_SIZE).foldl (fun acc y => pass1Cell L x y acc) acc) gs

/-- Ground scan of a column: the first `y` from `15` downward whose cell
is not air (`None` when the whole column is air). -/
def groundOf (g : Grid) (x : Fin CHUNK_SIZE) : Option (Fin CHUNK_SIZE) :=
  (List.finRange CHUNK_SIZE).reverse.find? (fun y => decide (g y x ≠ Kind.air))

/-- Vegetation pass for one column: Python's `if ground_y and ...` treats
both `None` and `0` as false, so a ground row of `0` grows no tree; the
tree draw happens only when the ground exists, is nonzero and is grass
(short-circuit `and`); trunk writes are guarded by `ground_y - h - 1 >= 0`
and leaf writes by a full bounds check plus the target cell being air. -/
def pass2Col (L : PyLib S) (x : Fin CHUNK_SIZE) (gs : Grid × S) : Grid × S :=
  match groundOf gs.1 x with
  | none => gs
  | some gy =>
    if (gy : Nat) ≠ 0 ∧ gs.1 gy x = Kind.grass then
      let rs := L.random gs.2
      if rs.1 < 5/100 then
        let hs := L.randint 2 4 rs.2
        let g := (List.range hs.1.toNat).foldl (fun g h =>
          if 0 ≤ (gy : Int) - h - 1 then setCellI g ((gy : Int) - h - 1) (x : Int) Kind.wood
          else g) gs.1
        let leafY : Int := (gy : Int) - hs.1
        let g := ([-1, 0, 1] : List Int).foldl (fun g dx =>
          ([-1, 0, 1] : List Int).foldl (fun g dy =>
            let lx := (x : Int) - (-dx)
            let ly := leafY - (-dy)
            if 0 ≤ lx ∧ lx < (CHUNK_SIZE : Int) ∧ 0 ≤ ly ∧ ly < (CHUNK_SIZE : Int) then
              if getCellI g ly lx = Kind.air then setCellI g ly lx Kind.leaf else g
            else g) g) g
        (g, hs.2)
      else (gs.1, rs.2)
    else gs

/-- Vegetation pass: `for x in range(16)`. -/
def pass2 (L : PyLib S) (gs : Grid × S) : Grid × S :=
  (List.finRange CHUNK_SIZE).foldl (fun acc x => pass2Col L x acc) gs

/-- `generate_chunk(cx, cy)`: reseed the module random generator from the
chunk coordinates, then run the two generation passes over an all-air
grid.  The returned state is the generator state the call leaves behind;
because of the leading reseed the grid ignores the incoming state. -/
def generate_chunk (L : PyLib S) (cx cy : Int) (s : S) : Grid × S :=
  let s := L.seed (cx * 928371 - (-cy) * 12345)
  pass2 L (pass1 L ((fun _ _ => Kind.air), s))

/-- The grid `generate_chunk(cx, cy)` always produces (any call state
gives the same grid, so the one with the freshly seeded state serves as
the canonical copy). -/
def pristineChunk (L : PyLib S) (cx cy : Int) : Grid :=
  (generate_chunk L cx cy (L.seed 0)).1

/-- Chunk coordinates. -/
abbrev ChunkPos := Int × Int

/-- The module-level `chunks` dict, as the partial map it denotes. -/
abbrev ChunkMap := ChunkPos → Option Grid

/-- The empty `chunks` dict. -/
def emptyChunks : ChunkMap := fun _ => none

/-- `chunks[k] = g`. -/
def insertChunk (m : ChunkMap) (k : ChunkPos) (g : Grid) : ChunkMap :=
  fun k' => if k' = k then some g else m k'

/-- Chunk coordinates of a tile: `math.floor(x / CHUNK_SIZE)` on each
axis (floor division; the divisor `16` is positive, so `Int.ediv` is the
floor). -/
def tileChunk (x y : Int) : ChunkPos :=
  (x.ediv (CHUNK_SIZE : Int), y.ediv (CHUNK_SIZE : Int))

/-- Local coordinate of a tile inside its chunk: `x % CHUNK_SIZE`, which
Python keeps in `[0, 16)` for the positive modulus. -/
def localIx (x : Int) : Fin CHUNK_SIZE :=
  ⟨(x.emod (CHUNK_SIZE : Int)).toNat, by
    have h1 : 0 ≤ x.emod (CHUNK_SIZE : Int) :=
      Int.emod_nonneg x (by norm_num)
    have h2 : x.emod (CHUNK_SIZE : Int) < (CHUNK_SIZE : Int) :=
      Int.emod_lt_of_pos x (by norm_num)
    omega⟩

/-- The shared prelude of `get_block` and `set_block`: look the chunk up,
generating and inserting it first when absent. -/
def materialize (L : PyLib S) (m : ChunkMap) (s : S) (k : ChunkPos) :
    Grid × ChunkMap × S :=
  match m k with
  | some c => (c, m, s)
  | none =>
    let gs := generate_chunk L k.1 k.2 s
    (gs.1, insertChunk m k gs.1, gs.2)

/-- `get_block(x, y)`: translate to chunk plus local coordinates,
materialize the chunk, read `chunk[by][bx]`. -/
def get_block (L : PyLib S) (m : ChunkMap) (s : S) (x y : Int) :
    Kind × ChunkMap × S :=
  let cms := materialize L m s (tileChunk x y)
  (cms.1 (localIx y) (localIx x), cms.2.1, cms.2.2)

/-- `set_block(x, y, block)`: translate coordinates, materialize the
chunk, write `chunk[by][bx] = block` (in Python the stored list is
mutated in place; here the updated chunk is stored back). -/
def set_block (L : PyLib S) (m : ChunkMap) (s : S) (x y : Int) (b : Kind) :
    ChunkMap × S :=
  let cms := materialize L m s (tileChunk x y)
  (insertChunk cms.2.1 (tileChunk x y) (setCell cms.1 (localIx y) (localIx x) b), cms.2.2)

/-- Integer interval `[a, b)` as a list, Python's `range(a, b)`. -/
def intRange (a b : Int) : List Int :=
  (List.range (b - a).toNat).map (fun (i : Nat) => a + (i : Int))

/-- Body of the chunk-streaming loop: `if (cx, cy) not in chunks:
chunks[(cx, cy)] = generate_chunk(cx, cy)`. -/
def ensureChunk (L : PyLib S) (acc : ChunkMap × S) (k : ChunkPos) :
    ChunkMap × S :=
  if (acc.1 k).isSome then acc
  else
    let gs := generate_chunk L k.1 k.2 acc.2
    (insertChunk acc.1 k gs.1, gs.2)

/-- The per-tick load loop of the main loop: every chunk coordinate in
`range(pc - LOAD_RADIUS, pc - (-LOAD_RADIUS - 1))` on both axes is
generated when absent. -/
def loadNearby (L : PyLib S) (pc : ChunkPos) (m : ChunkMap) (s : S) :
    ChunkMap × S :=
  (intRange (pc.1 - LOAD_RADIUS) (pc.1 - (-LOAD_RADIUS - 1))).foldl (fun acc cx =>
    (intRange (pc.2 - LOAD_RADIUS) (pc.2 - (-LOAD_RADIUS - 1))).foldl (fun acc cy =>
      ensureChunk L acc (cx, cy)) acc) (m, s)

/-- `unload_far_chunks(player_chunk)`: delete every chunk whose
coordinate distance from the player chunk exceeds `UNLOAD_RADIUS` on
either axis. -/
def unload_far_chunks (pc : ChunkPos) (m : ChunkMap) : ChunkMap :=
  fun k =>
    if |k.1 - pc.1| > UNLOAD_RADIUS ∨ |k.2 - pc.2| > UNLOAD_RADIUS then none
    else m k

/-- Chebyshev distance between chunk coordinates (glossary of the spec). -/
def cheb (a b : ChunkPos) : Int := max |a.1 - b.1| |a.2 - b.2|

/-- A pygame rectangle: integer position and size. -/
structure Rect where
  x : Int
  y : Int
  w : Int
  h : Int
deriving DecidableEq

/-- `pygame.Rect.colliderect` for the positive-size rectangles this
program uses: open-interval overlap on both axes. -/
def Rect.colliderect (a b : Rect) : Bool :=
  decide (a.x < b.x + b.w) && decide (b.x < a.x + a.w) &&
  decide (a.y < b.y + b.h) && decide (b.y < a.y + a.h)

/-- `pygame.Rect.inflate(dx, dy)`: grow around the center (C truncating
division for the half-offsets). -/
def Rect.inflate (r : Rect) (dx dy : Int) : Rect :=
  ⟨r.x - dx.tdiv 2, r.y - dy.tdiv 2, r.w + dx, r.h + dy⟩

/-- `pygame.Rect.centerx`. -/
def Rect.centerx (r : Rect) : Int := r.x + r.w.tdiv 2

/-- `pygame.Rect.centery`. -/
def Rect.centery (r : Rect) : Int := r.y + r.h.tdiv 2

/-- The `Player` object: tile position `x, y`, pixel rectangle,
inventory (a `defaultdict(int)`, i.e. a total map into ℤ defaulting to
`0`), and the selected material. -/
structure PlayerSt where
  x : Int
  y : Int
  rect : Rect
  inventory : Kind → Int
  selected : Kind

/-- The inventory the `Player` constructor sets up: `dirt: 10, stone: 5,
sword: 0, gun: 0, ammo: 0`, all other kinds at the default `0`. -/
def initialInventory : Kind → Int := fun k =>
  match k with
  | Kind.dirt => 10
  | Kind.stone => 5
  | _ => 0

/-- `Player()`. -/
def PlayerSt.init : PlayerSt :=
  { x := 0, y := 0
    rect := ⟨SCREEN_WIDTH.tdiv 2, SCREEN_HEIGHT.tdiv 2, TILE_SIZE, TILE_SIZE⟩
    inventory := initialInventory
    selected := Kind.dirt }

/-- `inventory[k] += d`. -/
def updInv (inv : Kind → Int) (k : Kind) (d : Int) : Kind → Int :=
  fun k' => if k' = k then inv k' + d else inv k'

/-- A `Zombie`: spawn tile (never updated after construction), pixel
rectangle, health. -/
structure Zombie where
  x : Int
  y : Int
  rect : Rect
  health : Int
deriving DecidableEq

/-- `Zombie(x, y)`. -/
def Zombie.init (x y : Int) : Zombie :=
  ⟨x, y, ⟨x * TILE_SIZE, y * TILE_SIZE, TILE_SIZE, TILE_SIZE⟩, 3⟩

/-- `Zombie.update(player)`: direction to the player's rectangle,
`dist = max(1, math.hypot(...))`, then move by `int(dir/dist)` on each
axis (`int()` truncates toward zero). -/
def Zombie.update (L : PyLib S) (z : Zombie) (player : PlayerSt) : Zombie :=
  let dir_x : Int := player.rect.x - z.rect.x
  let dir_y : Int := player.rect.y - z.rect.y
  let dist : Rat := max 1 (L.hypot dir_x dir_y)
  { z with rect :=
      { z.rect with
          x := z.rect.x - (-(truncInt ((dir_x : Rat) / dist)))
          y := z.rect.y - (-(truncInt ((dir_y : Rat) / dist))) } }

/-- A `Bullet`: pixel rectangle, rational velocity, remaining life. -/
structure Bullet where
  rect : Rect
  vx : Rat
  vy : Rat
  life : Int
deriving DecidableEq

/-- `Bullet(x, y, vx, vy)`: a 5×5 rectangle, life `120`. -/
def Bullet.init (x y : Int) (vx vy : Rat) : Bullet :=
  ⟨⟨x, y, 5, 5⟩, vx, vy, 120⟩

/-- `Bullet.update()`: advance by the truncated velocity and decrement
the life (the caller keeps the bullet when the returned `life > 0`). -/
def Bullet.update (b : Bullet) : Bullet :=
  { b with
      rect := { b.rect with
                  x := b.rect.x - (-(truncInt b.vx))
                  y := b.rect.y - (-(truncInt b.vy)) }
      life := b.life - 1 }

/-- An `Item`: kind and 16×16 pixel rectangle. -/
structure Item where
  kind : Kind
  rect : Rect
deriving DecidableEq

/-- `Item(x, y, kind)`. -/
def Item.init (x y : Int) (k : Kind) : Item :=
  ⟨k, ⟨x, y, TILE_SIZE.tdiv 2, TILE_SIZE.tdiv 2⟩⟩

/-- The whole module-level mutable state the main loop works on. -/
structure GameState (S : Type) where
  chunks : ChunkMap
  player : PlayerSt
  zombies : List Zombie
  bullets : List Bullet
  items : List Item
  time_of_day : Rat
  rng : S

/-- Material-select hotkeys `1`/`2`/`3`. -/
def selectKind (k : Kind) (st : GameState S) : GameState S :=
  { st with player := { st.player with selected := k } }

/-- The `K_SPACE` handler: damage `2` with a sword held, else `1`,
applied to every zombie whose rectangle meets the player's rectangle
inflated by `(20, 20)`; dead zombies are filtered out right after. -/
def meleeAttack (st : GameState S) : GameState S :=
  let damage : Int := if st.player.inventory Kind.sword > 0 then 2 else 1
  let zs := st.zombies.map (fun z =>
    if st.player.rect.colliderect (z.rect.inflate 20 20) then
      { z with health := z.health - damage }
    else z)
  { st with zombies := zs.filter (fun z => z.health > 0) }

/-- The `K_f` handler: only with a gun and ammunition in the inventory,
aim from the screen center to the mouse, normalize by
`max(1, math.hypot(...))`, scale to speed `10`, append a bullet at the
player rectangle's center and decrement the ammunition. -/
def fireEvent (L : PyLib S) (mx my : Int) (st : GameState S) : GameState S :=
  if st.player.inventory Kind.gun > 0 ∧ st.player.inventory Kind.ammo > 0 then
    let dir_x : Int := mx - SCREEN_WIDTH.tdiv 2
    let dir_y : Int := my - SCREEN_HEIGHT.tdiv 2
    let dist : Rat := max 1 (L.hypot dir_x dir_y)
    let vx := (dir_x : Rat) / dist * 10
    let vy := (dir_y : Rat) / dist * 10
    { st with
        bullets := st.bullets ++
          [Bullet.init st.player.rect.centerx st.player.rect.centery vx vy]
        player := { st.player with
          inventory := updInv st.player.inventory Kind.ammo (-1) } }
  else st

/-- The tile `place_block`/`break_block` target:
`self.x - (-self.rect.x // TILE_SIZE)` (and likewise for `y`). -/
def targetTileX (p : PlayerSt) : Int := p.x - (Int.ediv (-p.rect.x) TILE_SIZE)

/-- See `targetTileX`. -/
def targetTileY (p : PlayerSt) : Int := p.y - (Int.ediv (-p.rect.y) TILE_SIZE)

/-- `Player.place_block()`: only when the selected material's count is
positive (short-circuit: the world is only touched then) and the target
tile reads air; writes the material and decrements the count. -/
def place_block (L : PyLib S) (st : GameState S) : GameState S :=
  let p := st.player
  if p.inventory p.selected > 0 then
    let r := get_block L st.chunks st.rng (targetTileX p) (targetTileY p)
    if r.1 = Kind.air then
      let ms := set_block L r.2.1 r.2.2 (targetTileX p) (targetTileY p) p.selected
      { st with chunks := ms.1, rng := ms.2
                player := { p with inventory := updInv p.inventory p.selected (-1) } }
    else { st with chunks := r.2.1, rng := r.2.2 }
  else st

/-- `Player.break_block()`: read the target tile (materializing its
chunk), and when it is not air, set it to air and increment the count of
whatever kind stood there. -/
def break_block (L : PyLib S) (st : GameState S) : GameState S :=
  let p := st.player
  let r := get_block L st.chunks st.rng (targetTileX p) (targetTileY p)
  if r.1 ≠ Kind.air then
    let ms := set_block L r.2.1 r.2.2 (targetTileX p) (targetTileY p) Kind.air
    { st with chunks := ms.1, rng := ms.2
              player := { p with inventory := updInv p.inventory r.1 1 } }
  else { st with chunks := r.2.1, rng := r.2.2 }

/-- The four held movement keys a tick consumes. -/
structure TickInput where
  kw : Bool
  ks : Bool
  ka : Bool
  kd : Bool

/-- The held-key movement block: each held direction shifts the player
rectangle by 4 pixels, independently. -/
def moveKeys (inp : TickInput) (st : GameState S) : GameState S :=
  let r := st.player.rect
  let r := if inp.kw then { r with y := r.y - 4 } else r
  let r := if inp.ks then { r with y := r.y - (-4) } else r
  let r := if inp.ka then { r with x := r.x - 4 } else r
  let r := if inp.kd then { r with x := r.x - (-4) } else r
  { st with player := { st.player with rect := r } }

/-- `player_chunk` as the main loop computes it:
`player.x - (-player.rect.x // TILE_SIZE // CHUNK_SIZE)` per axis. -/
def playerChunk (p : PlayerSt) : ChunkPos :=
  (p.x - Int.ediv (Int.ediv (-p.rect.x) TILE_SIZE) (CHUNK_SIZE : Int),
   p.y - Int.ediv (Int.ediv (-p.rect.y) TILE_SIZE) (CHUNK_SIZE : Int))

/-- Inner bullet-zombie collision loop for a single bullet: every zombie
the bullet's rectangle meets loses 3 health and zeroes the bullet's life;
the loop has no early exit, so it visits all zombies. -/
def oneBullet (b : Bullet) (zs : List Zombie) : Bullet × List Zombie :=
  let fs := zs.foldl (fun (acc : Bool × List Zombie) z =>
    if b.rect.colliderect z.rect then
      (true, acc.2 ++ [{ z with health := z.health - 3 }])
    else (acc.1, acc.2 ++ [z])) (false, [])
  (if fs.1 then { b with life := 0 } else b, fs.2)

/-- The nested `for b in bullets: for z in zombies:` collision loops. -/
def collideAll (bs : List Bullet) (zs : List Zombie) : List Bullet × List Zombie :=
  bs.foldl (fun (acc : List Bullet × List Zombie) b =>
    (acc.1 ++ [(oneBullet b acc.2).1], (oneBullet b acc.2).2)) ([], zs)

/-- Collision resolution of one tick: the nested loops, then
`bullets = [b for b in bullets if b.life > 0]` and
`zombies[:] = [z for z in zombies if z.health > 0]`. -/
def bulletsZombiesStep (bs : List Bullet) (zs : List Zombie) :
    List Bullet × List Zombie :=
  let r := collideAll bs zs
  (r.1.filter (fun b => b.life > 0), r.2.filter (fun z => z.health > 0))

/-- The item pickup loop: an item overlapping the player's rectangle is
collected (its kind's count grows by one, a gun additionally grants five
ammunition), any other item stays. -/
def pickupStep (p : PlayerSt) (its : List Item) : PlayerSt × List Item :=
  let r := its.foldl (fun (acc : (Kind → Int) × List Item) it =>
    if p.rect.colliderect it.rect then
      ((if it.kind = Kind.gun then updInv (updInv acc.1 it.kind 1) Kind.ammo 5
        else updInv acc.1 it.kind 1), acc.2)
    else (acc.1, acc.2 ++ [it])) (p.inventory, [])
  ({ p with inventory := r.1 }, r.2)

/-- `time_of_day = (time_of_day - (-DAY_SPEED)) % 1.0`: advance the
clock and wrap modulo one (`x % 1.0` is `x - ⌊x⌋`), in exact rational
arithmetic.  This is the idealized clock used by the tick model; the
program's actual IEEE-754 double arithmetic is modelled exactly by
`clockStepF` below, and the two disagree after enough ticks (the double
clock accumulates rounding), which matters for the periodicity part of
C9. -/
def clockStep (t : Rat) : Rat :=
  (t - (-DAY_SPEED)) - ((⌊t - (-DAY_SPEED)⌋ : Int) : Rat)

/-- The IEEE-754 binary64 value of the source literal `0.001`, scaled by
`2^62`: the double nearest `1/1000` is `4611686018427388 * 2^(-62)`
(`0.001000000000000000020816…`). -/
def daySpeedF64 : Nat := 4611686018427388

/-- The spacing of the binary64 grid, scaled by `2^62`, in the binade of
`n` (for `2^52 ≤ n < 2^63`, i.e. clock values in `[2^(-10), 2)`): a
double in `[2^e, 2^(e+1))` has spacing `2^(e-52)`, which is
`2^(bitlength(n) - 53)` on this scale.  The guards are the numerals
`2^53, 2^54, …, 2^62`. -/
def f64grid (n : Nat) : Nat :=
  if n < 9007199254740992 then 1
  else if n < 18014398509481984 then 2
  else if n < 36028797018963968 then 4
  else if n < 72057594037927936 then 8
  else if n < 144115188075855872 then 16
  else if n < 288230376151711744 then 32
  else if n < 576460752303423488 then 64
  else if n < 1152921504606846976 then 128
  else if n < 2305843009213693952 then 256
  else if n < 4611686018427387904 then 512
  else 1024

/-- Round-to-nearest, ties-to-even, onto the binary64 grid of `n`'s own
binade (scale `2^62`): the rounding a binary64 addition applies to its
exact sum. -/
def roundF64 (n : Nat) : Nat :=
  if 2 * (n % f64grid n) < f64grid n then n / f64grid n * f64grid n
  else if f64grid n < 2 * (n % f64grid n) then (n / f64grid n + 1) * f64grid n
  else if n / f64grid n % 2 = 0 then n / f64grid n * f64grid n
  else (n / f64grid n + 1) * f64grid n

/-- One tick of the day clock under the program's actual binary64
semantics, on clock values in `[0, 1)` represented as exact multiples of
`2^(-62)` (every value the iteration reaches is one: `0.001` sits on the
`2^(-62)` grid and every coarser binade grid is a subgrid of it).
`t + 0.001` is computed exactly and then rounded to the sum's binade —
that is precisely what binary64 `+` does — and `% 1.0` subtracts `1`
when the sum reaches `[1, 2)`, which is exact in binary64 (Sterbenz:
`u - 1` is representable for `u ∈ [1, 2)`), here `n - 2^62`.  This
integer model reproduces the double trajectory of
`time_of_day = (time_of_day + 0.001) % 1.0` bit for bit. -/
def clockStepF (n : Nat) : Nat :=
  if roundF64 (n + daySpeedF64) < 4611686018427387904 then
    roundF64 (n + daySpeedF64)
  else roundF64 (n + daySpeedF64) - 4611686018427387904

/-- `daylight = (math.sin(time_of_day * 2 * math.pi) - (-1)) / 2`,
through the `sin2pi` oracle. -/
def daylightOf (L : PyLib S) (t : Rat) : Rat := (L.sin2pi t - (-1)) / 2

/-- The day-night block of a tick: advance the clock, derive the
daylight factor, and below daylight `0.3` run a 1% spawn trial placing a
new zombie at a random offset from the player's tile (the trial draw
happens only at night, mirroring the short-circuit `and`). -/
def nightSpawn (L : PyLib S) (st : GameState S) : GameState S :=
  let t := clockStep st.time_of_day
  let daylight := daylightOf L t
  if daylight < 3/10 then
    let rs := L.random st.rng
    if rs.1 < 1/100 then
      let xs := L.randint (-10) 10 rs.2
      let ys := L.randint (-10) 10 xs.2
      let zx := Int.ediv st.player.rect.x TILE_SIZE - (-xs.1)
      let zy := Int.ediv st.player.rect.y TILE_SIZE - (-ys.1)
      { st with time_of_day := t, rng := ys.2
                zombies := st.zombies ++ [Zombie.init zx zy] }
    else { st with time_of_day := t, rng := rs.2 }
  else { st with time_of_day := t }

/-- `visible_tiles_x = SCREEN_WIDTH // TILE_SIZE - (-2)`. -/
def visibleTilesX : Int := Int.ediv SCREEN_WIDTH TILE_SIZE - (-2)

/-- `visible_tiles_y = SCREEN_HEIGHT // TILE_SIZE - (-2)`. -/
def visibleTilesY : Int := Int.ediv SCREEN_HEIGHT TILE_SIZE - (-2)

/-- The render loop's effect on the core state: `get_block` over every
visible tile materializes chunks under the viewport (drawing itself is
presentation and out of scope). -/
def renderTouch (L : PyLib S) (m : ChunkMap) (s : S) (prect : Rect) :
    ChunkMap × S :=
  let startX := Int.ediv prect.x TILE_SIZE - Int.ediv visibleTilesX 2
  let startY := Int.ediv prect.y TILE_SIZE - Int.ediv visibleTilesY 2
  (intRange startX (startX - (-visibleTilesX))).foldl (fun acc xx =>
    (intRange startY (startY - (-visibleTilesY))).foldl (fun acc yy =>
      let r := get_block L acc.1 acc.2 xx yy
      (r.2.1, r.2.2)) acc) (m, s)

/-- One iteration of the main loop after event handling: held-key
movement, chunk streaming (load, then unload), zombie updates, bullet
updates and expiry, bullet-zombie collisions with the two filters, item
pickup, the day-night block with the nocturnal spawner, and the render
loop's chunk materialization. -/
def tick (L : PyLib S) (inp : TickInput) (st : GameState S) : GameState S :=
  let st := moveKeys inp st
  let pc := playerChunk st.player
  let ms := loadNearby L pc st.chunks st.rng
  let st := { st with chunks := unload_far_chunks pc ms.1, rng := ms.2 }
  let zs := st.zombies.map (fun z => Zombie.update L z st.player)
  let bs := (st.bullets.map Bullet.update).filter (fun b => b.life > 0)
  let bz := bulletsZombiesStep bs zs
  let pi := pickupStep st.player st.items
  let st := { st with zombies := bz.2, bullets := bz.1, items := pi.2, player := pi.1 }
  let st := nightSpawn L st
  let ms := renderTouch L st.chunks st.rng st.player.rect
  { st with chunks := ms.1, rng := ms.2 }

/-- The initial zombie seeding: five zombies at `randint(-10, 10)`
coordinate pairs. -/
def initZombies (L : PyLib S) (s : S) : List Zombie × S :=
  (List.range 5).foldl (fun (acc : List Zombie × S) _ =>
    let xs := L.randint (-10) 10 acc.2
    let ys := L.randint (-10) 10 xs.2
    (acc.1 ++ [Zombie.init xs.1 ys.1], ys.2)) ([], s)

/-- The initial item seeding: six items at `randint(-5, 5) * TILE_SIZE`
pixel pairs, each a random choice between sword and gun. -/
def initItems (L : PyLib S) (s : S) : List Item × S :=
  (List.range 6).foldl (fun (acc : List Item × S) _ =>
    let xs := L.randint (-5) 5 acc.2
    let ys := L.randint (-5) 5 xs.2
    let ks := L.pickKind ys.2
    (acc.1 ++ [Item.init (xs.1 * TILE_SIZE) (ys.1 * TILE_SIZE) ks.1], ks.2)) ([], s)

/-- The module state right before the main loop: fresh player, empty
chunk dict, the seeded zombies and items, no bullets, clock at zero.
`s` is whatever state the runtime's generator starts in. -/
def initState (L : PyLib S) (s : S) : GameState S :=
  let zs := initZombies L s
  let its := initItems L zs.2
  { chunks := emptyChunks, player := PlayerSt.init, zombies := zs.1
    bullets := [], items := its.1, time_of_day := 0, rng := its.2 }

/-- The states the program can be in: the initial state, followed by any
interleaving of event-handler invocations and main-loop ticks (exactly
the operations of the event loop and the per-frame body). -/
inductive Reachable (L : PyLib S) : GameState S → Prop where
  | init (s : S) : Reachable L (initState L s)
  | selDirt {st} : Reachable L st → Reachable L (selectKind Kind.dirt st)
  | selStone {st} : Reachable L st → Reachable L (selectKind Kind.stone st)
  | selWood {st} : Reachable L st → Reachable L (selectKind Kind.wood st)
  | melee {st} : Reachable L st → Reachable L (meleeAttack st)
  | fire {st} (mx my : Int) : Reachable L st → Reachable L (fireEvent L mx my st)
  | place {st} : Reachable L st → Reachable L (place_block L st)
  | breakBlk {st} : Reachable L st → Reachable L (break_block L st)
  | tickStep {st} (inp : TickInput) : Reachable L st → Reachable L (tick L inp st)

/-- A concrete runtime-library instance used to evaluate the theorems on
closed inputs: a trivial one-state generator whose draws are fixed, and
a hypot oracle overapproximating by `|x| + |y|` (all that the general
theorems assume of `hypot` is that it dominates each component, which
this satisfies). -/
def demoLib : PyLib Unit :=
  { seed := fun _ => ()
    random := fun s => (1/2, s)
    randint := fun a _ s => (a, s)
    pickKind := fun s => (Kind.sword, s)
    hypot := fun dx dy => ((|dx| + |dy| : Int) : Rat)
    sin2pi := fun _ => 0 }

/-- Like `demoLib`, but with the hypot oracle answering the one query of
the C6 counterexample with the exact value of `math.hypot(3, 4)`, which
is `5` (25 is a perfect square, so the floating-point result is exact). -/
def hypot34Lib : PyLib Unit :=
  { demoLib with hypot := fun dx dy => if dx = 3 ∧ dy = 4 then 5 else ((|dx| + |dy| : Int) : Rat) }

/-- A bullet parked at the origin, for the C5 counterexample. -/
def cexBullet : Bullet := ⟨⟨0, 0, 5, 5⟩, 0, 0, 120⟩

/-- First zombie overlapping `cexBullet`. -/
def cexZombieA : Zombie := ⟨0, 0, ⟨0, 0, 32, 32⟩, 10⟩

/-- Second zombie overlapping `cexBullet`, later in registry order. -/
def cexZombieB : Zombie := ⟨1, 1, ⟨0, 0, 32, 32⟩, 10⟩

/-- A zombie at the origin for the C6 counterexample. -/
def cexZombie6 : Zombie := Zombie.init 0 0

/-- A player offset (3, 4) from `cexZombie6` — Euclidean distance 5. -/
def cexPlayer6 : PlayerSt := { PlayerSt.init with rect := ⟨3, 4, 32, 32⟩ }

/-- A game state holding one gun and one round, for the C7 witness. -/
def fireState : GameState Unit :=
  { chunks := emptyChunks
    player := { PlayerSt.init with
      inventory := updInv (updInv initialInventory Kind.gun 1) Kind.ammo 1 }
    zombies := [], bullets := [], items := [], time_of_day := 0, rng := () }

/-! Helper lemmas. -/

theorem generate_chunk_fst_const (L : PyLib S) (cx cy : Int) (s₁ s₂ : S) :
    (generate_chunk L cx cy s₁).1 = (generate_chunk L cx cy s₂).1 := rfl

theorem setCell_same (g : Grid) (y x : Fin CHUNK_SIZE) (b : Kind) :
    setCell g y x b y x = b := by
  simp [setCell]

theorem materialize_of_some (L : PyLib S) (m : ChunkMap) (s : S) (k : ChunkPos)
    (c : Grid) (h : m k = some c) : materialize L m s k = (c, m, s) := by
  unfold materialize
  rw [h]

theorem materialize_of_none (L : PyLib S) (m : ChunkMap) (s : S) (k : ChunkPos)
    (h : m k = none) :
    materialize L m s k =
      ((generate_chunk L k.1 k.2 s).1,
       insertChunk m k (generate_chunk L k.1 k.2 s).1,
       (generate_chunk L k.1 k.2 s).2) := by
  unfold materialize
  rw [h]

theorem foldl_preserve {α β : Type} (P : β → Prop) (f : β → α → β) (l : List α)
    (b : β) (hf : ∀ b a, P b → P (f b a)) (hb : P b) : P (l.foldl f b) := by
  induction l generalizing b with
  | nil => exact hb
  | cons a l ih => exact ih _ (hf _ _ hb)

theorem foldl_establish {α β : Type} (P : β → Prop) (f : β → α → β) (l : List α)
    (b : β) (a : α) (ha : a ∈ l) (hf : ∀ b a', P b → P (f b a'))
    (hset : ∀ b, P (f b a)) : P (l.foldl f b) := by
  induction l generalizing b with
  | nil => cases ha
  | cons x l ih =>
    rcases List.mem_cons.mp ha with h | h
    · subst h
      exact foldl_preserve P f l _ hf (hset b)
    · exact ih (f b x) h

theorem ensureChunk_isSome_self (L : PyLib S) (acc : ChunkMap × S) (k : ChunkPos) :
    ((ensureChunk L acc k).1 k).isSome := by
  unfold ensureChunk
  split
  · assumption
  · simp [insertChunk]

theorem ensureChunk_mono (L : PyLib S) (acc : ChunkMap × S) (k k' : ChunkPos)
    (h : (acc.1 k).isSome) : ((ensureChunk L acc k').1 k).isSome := by
  unfold ensureChunk
  split
  · exact h
  · by_cases hk : k = k' <;> simp [insertChunk, hk, h]

theorem mem_intRange {a b x : Int} (h1 : a ≤ x) (h2 : x < b) : x ∈ intRange a b := by
  unfold intRange
  have hm : (x - a).toNat ∈ List.range (b - a).toNat := List.mem_range.mpr (by omega)
  have hx : a + (((x - a).toNat : Nat) : Int) = x := by omega
  rw [← hx]
  exact List.mem_map_of_mem (fun i : Nat => a + (i : Int)) hm

theorem oneBullet_fold (b : Bullet) (zs : List Zombie) :
    ∀ (fl : Bool) (acc : List Zombie),
      zs.foldl (fun (acc : Bool × List Zombie) z =>
        if b.rect.colliderect z.rect then
          (true, acc.2 ++ [{ z with health := z.health - 3 }])
        else (acc.1, acc.2 ++ [z])) (fl, acc)
      = (fl || zs.any (fun z => b.rect.colliderect z.rect),
         acc ++ zs.map (fun z =>
           if b.rect.colliderect z.rect then { z with health := z.health - 3 } else z)) := by
  induction zs with
  | nil => intro fl acc; simp
  | cons z zs ih =>
    intro fl acc
    by_cases hc : b.rect.colliderect z.rect <;>
      simp [hc, ih, List.append_assoc]

theorem oneBullet_spec (b : Bullet) (zs : List Zombie) :
    oneBullet b zs =
      (if zs.any (fun z => b.rect.colliderect z.rect) then { b with life := 0 } else b,
       zs.map (fun z =>
         if b.rect.colliderect z.rect then { z with health := z.health - 3 } else z)) := by
  unfold oneBullet
  rw [oneBullet_fold]
  simp

theorem damage_rect (b : Bullet) (z : Zombie) :
    (if b.rect.colliderect z.rect then { z with health := z.health - 3 } else z).rect
      = z.rect := by
  split <;> rfl

theorem any_damage_map (b b' : Bullet) (zs : List Zombie) :
    (zs.map (fun z =>
      if b.rect.colliderect z.rect then { z with health := z.health - 3 } else z)).any
        (fun z => b'.rect.colliderect z.rect)
      = zs.any (fun z => b'.rect.colliderect z.rect) := by
  rw [List.any_map]
  congr 1
  funext z
  simp [Function.comp, damage_rect]

theorem collideAll_fold (bs : List Bullet) :
    ∀ (zs : List Zombie) (accB : List Bullet),
      bs.foldl (fun (acc : List Bullet × List Zombie) b =>
        (acc.1 ++ [(oneBullet b acc.2).1], (oneBullet b acc.2).2)) (accB, zs)
      = (accB ++ bs.map (fun b =>
           if zs.any (fun z => b.rect.colliderect z.rect) then { b with life := 0 } else b),
         zs.map (fun z =>
           { z with health :=
               z.health - 3 * (bs.countP (fun b => b.rect.colliderect z.rect) : Int) })) := by
  induction bs with
  | nil =>
    intro zs accB
    simp
  | cons b bs ih =>
    intro zs accB
    simp only [List.foldl_cons]
    rw [ih, oneBullet_spec]
    simp only [Prod.mk.injEq]
    constructor
    · simp only [any_damage_map, List.map_cons, List.append_assoc, List.singleton_append]
    · rw [List.map_map]
      congr 1
      funext z
      by_cases hc : b.rect.colliderect z.rect
      · have hcnt : (((b :: bs).countP (fun b₂ => b₂.rect.colliderect z.rect)) : Int)
            = ((bs.countP (fun b₂ => b₂.rect.colliderect z.rect)) : Int) + 1 := by
          rw [List.countP_cons]
          simp [hc]
        simp [Function.comp, hc, hcnt]
        ring
      · have hcnt : (((b :: bs).countP (fun b₂ => b₂.rect.colliderect z.rect)) : Int)
            = ((bs.countP (fun b₂ => b₂.rect.colliderect z.rect)) : Int) := by
          rw [List.countP_cons]
          simp [hc]
        simp [Function.comp, hc, hcnt]

theorem abs_tdiv_le_one {a b : Int} (hb : 0 < b) (h : |a| ≤ b) : |a.tdiv b| ≤ 1 := by
  have h' : (a.natAbs : Int) ≤ b := by rwa [Int.abs_eq_natAbs] at h
  have h1 : a.natAbs ≤ b.natAbs := by omega
  have h2 : (a.tdiv b).natAbs ≤ 1 := by
    rw [Int.natAbs_tdiv]
    calc a.natAbs / b.natAbs ≤ b.natAbs / b.natAbs := Nat.div_le_div_right h1
      _ = 1 := Nat.div_self (by omega)
  rw [Int.abs_eq_natAbs]
  omega

theorem abs_truncInt_le_one {q : Rat} (h : |q| ≤ 1) : |truncInt q| ≤ 1 := by
  have hden : (0 : Rat) < (q.den : Rat) := by exact_mod_cast q.pos
  have hq : |(q.num : Rat)| / (q.den : Rat) ≤ 1 := by
    rw [← abs_of_pos hden, ← abs_div, Rat.num_div_den]
    exact h
  have hnum : |(q.num : Rat)| ≤ (q.den : Rat) := (div_le_one hden).mp hq
  have hnum' : |q.num| ≤ (q.den : Int) := by exact_mod_cast hnum
  unfold truncInt
  exact abs_tdiv_le_one (by exact_mod_cast q.pos) hnum'

/-! Claim theorems. -/

/-- C1: `generate_chunk` reseeds the module random generator from the
chunk coordinates before drawing anything, so for every chunk coordinate
pair the produced grid is the same whatever generator state any prior
history of calls left behind — the grid is a pure function of
`(cx, cy)`. -/
theorem generate_chunk_deterministic (L : PyLib S) (cx cy : Int) (s₁ s₂ : S) :
    (generate_chunk L cx cy s₁).1 = (generate_chunk L cx cy s₂).1 := rfl

/-- C2: writing a block with `set_block(x, y, b)` and reading the same
tile back with `get_block(x, y)`, with the chunk still in the store,
yields `b`: both translate `(x, y)` to the same chunk key and the same
local indices, and the write lands in the stored chunk the read finds. -/
theorem set_then_get (L : PyLib S) (m : ChunkMap) (s : S) (x y : Int) (b : Kind) :
    (get_block L (set_block L m s x y b).1 (set_block L m s x y b).2 x y).1 = b := by
  have hl : (set_block L m s x y b).1 (tileChunk x y) =
      some (setCell (materialize L m s (tileChunk x y)).1 (localIx y) (localIx x) b) := by
    simp [set_block, insertChunk]
  unfold get_block
  rw [materialize_of_some _ _ _ _ _ hl]
  exact setCell_same _ _ _ _

/-- C3: after the per-tick load loop around the player chunk every chunk
coordinate within Chebyshev distance `LOAD_RADIUS` of it is present in
the store, and after `unload_far_chunks` no chunk at Chebyshev distance
greater than `UNLOAD_RADIUS` remains. -/
theorem streaming_coverage (L : PyLib S) (pc k k' : ChunkPos) (m m' : ChunkMap)
    (s : S) (hin : cheb k pc ≤ LOAD_RADIUS) (hout : cheb k' pc > UNLOAD_RADIUS) :
    ((loadNearby L pc m s).1 k).isSome ∧ unload_far_chunks pc m' k' = none := by
  obtain ⟨k1, k2⟩ := k
  obtain ⟨k1', k2'⟩ := k'
  rw [show cheb (k1, k2) pc = max |k1 - pc.1| |k2 - pc.2| from rfl] at hin
  rw [show cheb (k1', k2') pc = max |k1' - pc.1| |k2' - pc.2| from rfl] at hout
  constructor
  · have hx : |k1 - pc.1| ≤ LOAD_RADIUS := le_trans (le_max_left _ _) hin
    have hy : |k2 - pc.2| ≤ LOAD_RADIUS := le_trans (le_max_right _ _) hin
    rw [abs_le] at hx hy
    have hL : LOAD_RADIUS = 2 := rfl
    have hm1 : k1 ∈ intRange (pc.1 - LOAD_RADIUS) (pc.1 - (-LOAD_RADIUS - 1)) :=
      mem_intRange (by omega) (by omega)
    have hm2 : k2 ∈ intRange (pc.2 - LOAD_RADIUS) (pc.2 - (-LOAD_RADIUS - 1)) :=
      mem_intRange (by omega) (by omega)
    unfold loadNearby
    refine foldl_establish (fun (acc : ChunkMap × S) => ((acc.1 (k1, k2)).isSome = true))
      _ _ _ k1 hm1
      (fun b a' hb => foldl_preserve _ _ _ _ (fun b a hb => ensureChunk_mono L b _ _ hb) hb)
      (fun b => ?_)
    exact foldl_establish (fun (acc : ChunkMap × S) => ((acc.1 (k1, k2)).isSome = true))
      _ _ _ k2 hm2
      (fun b a' hb => ensureChunk_mono L b _ _ hb)
      (fun b => ensureChunk_isSome_self L b (k1, k2))
  · have h := lt_max_iff.mp hout
    unfold unload_far_chunks
    rw [if_pos]
    exact h

/-- C4: a chunk evicted by `unload_far_chunks` (whatever mutations it
carried, `set_block` writes included) is re-materialized on the next
access purely by `generate_chunk`, so reading any of its tiles agrees
with reading from a completely fresh store, and the chunk stored back is
the pristine generated grid. -/
theorem eviction_regenerates (L : PyLib S) (m : ChunkMap) (s s₀ : S)
    (pc : ChunkPos) (x y : Int) (h : cheb (tileChunk x y) pc > UNLOAD_RADIUS) :
    (get_block L (unload_far_chunks pc m) s x y).1 = (get_block L emptyChunks s₀ x y).1 ∧
    (get_block L (unload_far_chunks pc m) s x y).2.1 (tileChunk x y) =
      some (pristineChunk L (tileChunk x y).1 (tileChunk x y).2) := by
  have hnone : unload_far_chunks pc m (tileChunk x y) = none := by
    rw [show cheb (tileChunk x y) pc =
        max |(tileChunk x y).1 - pc.1| |(tileChunk x y).2 - pc.2| from rfl] at h
    unfold unload_far_chunks
    rw [if_pos]
    exact lt_max_iff.mp h
  have hempty : emptyChunks (tileChunk x y) = none := rfl
  simp only [get_block, materialize_of_none L _ s _ hnone,
    materialize_of_none L emptyChunks s₀ _ hempty]
  constructor
  · rw [generate_chunk_fst_const L (tileChunk x y).1 (tileChunk x y).2 s s₀]
  · rw [generate_chunk_fst_const L (tileChunk x y).1 (tileChunk x y).2 s (L.seed 0)]
    simp [insertChunk, pristineChunk]

/-- Witness for C3: chunk `(1, 2)` (Chebyshev distance 2 from the
origin) is loaded, chunk `(4, 0)` (distance 4) is unloaded. -/
theorem streaming_coverage_witness :
    ((loadNearby demoLib (0, 0) emptyChunks ()).1 (1, 2)).isSome ∧
    unload_far_chunks (0, 0) emptyChunks (4, 0) = none :=
  streaming_coverage demoLib (0, 0) (1, 2) (4, 0) emptyChunks emptyChunks ()
    (by decide) (by decide)

/-- Witness for C4 at tile `(100, 100)` (chunk `(6, 6)`, Chebyshev
distance 6 from the origin chunk). -/
theorem eviction_regenerates_witness :
    (get_block demoLib (unload_far_chunks (0, 0) emptyChunks) () 100 100).1 =
      (get_block demoLib emptyChunks () 100 100).1 ∧
    (get_block demoLib (unload_far_chunks (0, 0) emptyChunks) () 100 100).2.1
        (tileChunk 100 100) =
      some (pristineChunk demoLib (tileChunk 100 100).1 (tileChunk 100 100).2) :=
  eviction_regenerates demoLib emptyChunks () () (0, 0) 100 100 (by decide)

/-- C5 counterexample: the inner collision loop has no early exit, so one
bullet overlapping two zombies damages both in the same tick.  With
`cexBullet` overlapping `cexZombieA` and `cexZombieB` (both at health
10), both end the step at health 7 — the second agent in registry order
is damaged too, refuting "the fixed damage is applied to exactly one
agent".  The bullet itself is removed by the end-of-step filter. -/
theorem projectile_hits_second_agent :
    (bulletsZombiesStep [cexBullet] [cexZombieA, cexZombieB]).2.map Zombie.health
      = [7, 7] ∧
    (bulletsZombiesStep [cexBullet] [cexZombieA, cexZombieB]).1 = [] ∧
    cexZombieB.health = 10 := by
  decide

/-- C5 amended: in the per-tick projectile collision step a projectile
deals its fixed damage 3 to EVERY agent it overlaps (the first in
registry order is merely the first visited, not the only one hit); its
lifetime is zeroed as soon as it overlaps any agent, so the end-of-step
filter removes it and it cannot damage agents in later ticks. -/
theorem projectile_damage_spec (bs : List Bullet) (zs : List Zombie) :
    (collideAll bs zs).1 = bs.map (fun b =>
        if zs.any (fun z => b.rect.colliderect z.rect) then { b with life := 0 } else b) ∧
    (collideAll bs zs).2 = zs.map (fun z =>
        { z with health :=
            z.health - 3 * (bs.countP (fun b => b.rect.colliderect z.rect) : Int) }) ∧
    bulletsZombiesStep bs zs =
      ((collideAll bs zs).1.filter (fun b => b.life > 0),
       (collideAll bs zs).2.filter (fun z => z.health > 0)) := by
  refine ⟨?_, ?_, rfl⟩
  · unfold collideAll
    rw [collideAll_fold]
    simp
  · unfold collideAll
    rw [collideAll_fold]

unseal Rat.mul Rat.inv Rat.add Rat.sub in
/-- C6 counterexample: `Zombie.update` truncates each component of the
normalized direction toward zero.  With the player offset `(3, 4)` from
the zombie — Euclidean distance exactly 5, so `math.hypot` returns 5 —
the step is `(int(3/5), int(4/5)) = (0, 0)`: the zombie does not move at
all although it is not at the player's position, refuting "always makes
progress". -/
theorem zombie_makes_no_progress :
    Zombie.update hypot34Lib cexZombie6 cexPlayer6 = cexZombie6 ∧
    cexPlayer6.rect.x ≠ cexZombie6.rect.x ∧
    cexPlayer6.rect.y ≠ cexZombie6.rect.y := by
  decide

/-- C6 amended: one agent update step moves the agent by the
componentwise integer truncation of the normalized direction vector —
each axis moves by at most one pixel, and (as the counterexample shows)
possibly by zero even when the agent is away from the player; the only
assumption on the `hypot` oracle is that it dominates each component's
magnitude, which holds for `math.hypot`. -/
theorem zombie_step_truncated (L : PyLib S) (z : Zombie) (p : PlayerSt)
    (hx : ((|p.rect.x - z.rect.x| : Int) : Rat) ≤
      L.hypot (p.rect.x - z.rect.x) (p.rect.y - z.rect.y))
    (hy : ((|p.rect.y - z.rect.y| : Int) : Rat) ≤
      L.hypot (p.rect.x - z.rect.x) (p.rect.y - z.rect.y)) :
    (Zombie.update L z p).rect.x = z.rect.x +
      truncInt (((p.rect.x - z.rect.x : Int) : Rat) /
        max 1 (L.hypot (p.rect.x - z.rect.x) (p.rect.y - z.rect.y))) ∧
    (Zombie.update L z p).rect.y = z.rect.y +
      truncInt (((p.rect.y - z.rect.y : Int) : Rat) /
        max 1 (L.hypot (p.rect.x - z.rect.x) (p.rect.y - z.rect.y))) ∧
    |(Zombie.update L z p).rect.x - z.rect.x| ≤ 1 ∧
    |(Zombie.update L z p).rect.y - z.rect.y| ≤ 1 := by
  have hdpos : (0 : Rat) <
      max 1 (L.hypot (p.rect.x - z.rect.x) (p.rect.y - z.rect.y)) :=
    lt_of_lt_of_le one_pos (le_max_left _ _)
  have hxq : |((p.rect.x - z.rect.x : Int) : Rat) /
      max 1 (L.hypot (p.rect.x - z.rect.x) (p.rect.y - z.rect.y))| ≤ 1 := by
    rw [abs_div, abs_of_pos hdpos, div_le_one hdpos, ← Int.cast_abs]
    exact le_trans hx (le_max_right 1 _)
  have hyq : |((p.rect.y - z.rect.y : Int) : Rat) /
      max 1 (L.hypot (p.rect.x - z.rect.x) (p.rect.y - z.rect.y))| ≤ 1 := by
    rw [abs_div, abs_of_pos hdpos, div_le_one hdpos, ← Int.cast_abs]
    exact le_trans hy (le_max_right 1 _)
  have ex : (Zombie.update L z p).rect.x = z.rect.x +
      truncInt (((p.rect.x - z.rect.x : Int) : Rat) /
        max 1 (L.hypot (p.rect.x - z.rect.x) (p.rect.y - z.rect.y))) := by
    simp [Zombie.update, sub_neg_eq_add]
  have ey : (Zombie.update L z p).rect.y = z.rect.y +
      truncInt (((p.rect.y - z.rect.y : Int) : Rat) /
        max 1 (L.hypot (p.rect.x - z.rect.x) (p.rect.y - z.rect.y))) := by
    simp [Zombie.update, sub_neg_eq_add]
  refine ⟨ex, ey, ?_, ?_⟩
  · rw [ex, add_sub_cancel_left]
    exact abs_truncInt_le_one hxq
  · rw [ey, add_sub_cancel_left]
    exact abs_truncInt_le_one hyq

/-- Witness for the C6 amended theorem, at the concrete offset `(3, 4)`
with the dominating hypot oracle of `demoLib`. -/
theorem zombie_step_truncated_witness :
    (((|cexPlayer6.rect.x - cexZombie6.rect.x| : Int) : Rat) ≤
       demoLib.hypot (cexPlayer6.rect.x - cexZombie6.rect.x)
         (cexPlayer6.rect.y - cexZombie6.rect.y)) ∧
    (((|cexPlayer6.rect.y - cexZombie6.rect.y| : Int) : Rat) ≤
       demoLib.hypot (cexPlayer6.rect.x - cexZombie6.rect.x)
         (cexPlayer6.rect.y - cexZombie6.rect.y)) ∧
    |(Zombie.update demoLib cexZombie6 cexPlayer6).rect.x - cexZombie6.rect.x| ≤ 1 ∧
    |(Zombie.update demoLib cexZombie6 cexPlayer6).rect.y - cexZombie6.rect.y| ≤ 1 :=
  ⟨by decide, by decide,
   (zombie_step_truncated demoLib cexZombie6 cexPlayer6 (by decide) (by decide)).2.2.1,
   (zombie_step_truncated demoLib cexZombie6 cexPlayer6 (by decide) (by decide)).2.2.2⟩

/-- C7: a fire intent spawns a projectile exactly when the player holds
a gun and at least one round; a successful fire appends one bullet at
the player's rectangle center and decrements the ammunition by exactly
one; otherwise (in particular with `ammo = 0`) the state is unchanged,
and the ammunition count never becomes negative. -/
theorem fire_contract (L : PyLib S) (mx my : Int) (st : GameState S)
    (h0 : 0 ≤ st.player.inventory Kind.ammo) :
    ((st.player.inventory Kind.gun > 0 ∧ st.player.inventory Kind.ammo > 0) →
       (fireEvent L mx my st).bullets =
         st.bullets ++ [Bullet.init st.player.rect.centerx st.player.rect.centery
           (((mx - SCREEN_WIDTH.tdiv 2 : Int) : Rat) /
             max 1 (L.hypot (mx - SCREEN_WIDTH.tdiv 2) (my - SCREEN_HEIGHT.tdiv 2)) * 10)
           (((my - SCREEN_HEIGHT.tdiv 2 : Int) : Rat) /
             max 1 (L.hypot (mx - SCREEN_WIDTH.tdiv 2) (my - SCREEN_HEIGHT.tdiv 2)) * 10)] ∧
       (fireEvent L mx my st).player.inventory Kind.ammo =
         st.player.inventory Kind.ammo - 1) ∧
    (¬(st.player.inventory Kind.gun > 0 ∧ st.player.inventory Kind.ammo > 0) →
       fireEvent L mx my st = st) ∧
    ((fireEvent L mx my st).bullets.length = st.bullets.length + 1 ↔
       (st.player.inventory Kind.gun > 0 ∧ st.player.inventory Kind.ammo > 0)) ∧
    0 ≤ (fireEvent L mx my st).player.inventory Kind.ammo := by
  by_cases hg : st.player.inventory Kind.gun > 0 ∧ st.player.inventory Kind.ammo > 0
  · refine ⟨fun _ => ⟨?_, ?_⟩, fun hn => absurd hg hn, ?_, ?_⟩
    · simp [fireEvent, hg]
    · simp [fireEvent, hg, updInv, sub_eq_add_neg]
    · simp [fireEvent, hg]
    · have : (fireEvent L mx my st).player.inventory Kind.ammo =
        st.player.inventory Kind.ammo - 1 := by
        simp [fireEvent, hg, updInv, sub_eq_add_neg]
      omega
  · refine ⟨fun h => absurd h hg, fun _ => ?_, ?_, ?_⟩
    · simp [fireEvent, hg]
    · simp [fireEvent, hg]
    · simp [fireEvent, hg, h0]

theorem initialInventory_nonneg : ∀ k, 0 ≤ initialInventory k := by
  intro k
  cases k <;> simp [initialInventory]

theorem pickup_fold_nonneg (r : Rect) (its : List Item) :
    ∀ (acc : (Kind → Int) × List Item), (∀ k, 0 ≤ acc.1 k) →
      ∀ k, 0 ≤ (its.foldl (fun (acc : (Kind → Int) × List Item) it =>
        if r.colliderect it.rect then
          ((if it.kind = Kind.gun then updInv (updInv acc.1 it.kind 1) Kind.ammo 5
            else updInv acc.1 it.kind 1), acc.2)
        else (acc.1, acc.2 ++ [it])) acc).1 k := by
  induction its with
  | nil => exact fun acc h k => h k
  | cons it its ih =>
    intro acc h k
    simp only [List.foldl_cons]
    apply ih
    intro k'
    have hk := h k'
    by_cases hc : r.colliderect it.rect <;>
      simp only [hc, if_pos, if_neg, ite_true, ite_false, Bool.false_eq_true] <;>
      [skip; exact hk]
    by_cases hg : it.kind = Kind.gun <;>
      simp only [hg, ite_true, ite_false, updInv] <;> split_ifs <;> omega

theorem pickupStep_inventory_nonneg (p : PlayerSt) (its : List Item)
    (h : ∀ k, 0 ≤ p.inventory k) : ∀ k, 0 ≤ (pickupStep p its).1.inventory k := by
  intro k
  exact pickup_fold_nonneg p.rect its (p.inventory, []) h k

theorem nightSpawn_player (L : PyLib S) (st : GameState S) :
    (nightSpawn L st).player = st.player := by
  simp only [nightSpawn]
  split_ifs <;> rfl

theorem moveKeys_items (inp : TickInput) (st : GameState S) :
    (moveKeys inp st).items = st.items := rfl

theorem tick_player (L : PyLib S) (inp : TickInput) (st : GameState S) :
    (tick L inp st).player = (pickupStep (moveKeys inp st).player st.items).1 := by
  simp [tick, nightSpawn_player, moveKeys_items]

/-- C8: every inventory count is non-negative in every reachable state.
The initial inventory is non-negative; the two decrementing operations
(block placement and firing) are guarded by a strictly-positive check on
the very count they decrement; the break and pickup paths only add; and
no other operation touches the inventory. -/
theorem inventory_nonneg_reachable (L : PyLib S) (st : GameState S)
    (h : Reachable L st) : ∀ k, 0 ≤ st.player.inventory k := by
  induction h with
  | init s => exact initialInventory_nonneg
  | selDirt _ ih => exact ih
  | selStone _ ih => exact ih
  | selWood _ ih => exact ih
  | melee _ ih => exact ih
  | fire mx my _ ih =>
    intro k
    unfold fireEvent
    split
    · rename_i hg
      show 0 ≤ updInv _ Kind.ammo (-1) k
      unfold updInv
      have h1 := ih k
      have h2 := hg.2
      split_ifs with hk
      · subst hk; omega
      · exact h1
    · exact ih k
  | place _ ih =>
    intro k
    simp only [place_block]
    split
    · rename_i hg
      split
      · show 0 ≤ updInv _ _ (-1) k
        unfold updInv
        have h1 := ih k
        split_ifs with hk
        · subst hk; omega
        · exact h1
      · exact ih k
    · exact ih k
  | breakBlk _ ih =>
    intro k
    simp only [break_block]
    split
    · show 0 ≤ updInv _ _ 1 k
      unfold updInv
      have h1 := ih k
      split_ifs <;> omega
    · exact ih k
  | tickStep inp _ ih =>
    intro k
    rw [tick_player]
    apply pickupStep_inventory_nonneg
    intro k'
    exact ih k'

/-- Witness for C8 at the initial state. -/
theorem inventory_nonneg_reachable_witness :
    0 ≤ (initState demoLib ()).player.inventory Kind.dirt :=
  inventory_nonneg_reachable demoLib (initState demoLib ())
    (Reachable.init ()) Kind.dirt

theorem clockStep_eq (t : Rat) : clockStep t = Int.fract (t + DAY_SPEED) := by
  unfold clockStep Int.fract
  rw [sub_neg_eq_add]

theorem clockStep_iter (n : Nat) :
    ∀ a : Rat, clockStep^[n] (Int.fract a) = Int.fract (a + n * DAY_SPEED) := by
  induction n with
  | zero => intro a; simp
  | succ n ih =>
    intro a
    rw [Function.iterate_succ_apply]
    have h1 : clockStep (Int.fract a) = Int.fract (a + DAY_SPEED) := by
      rw [clockStep_eq]
      have h2 : Int.fract a + DAY_SPEED = (a + DAY_SPEED) - ((⌊a⌋ : Int) : Rat) := by
        rw [Int.fract]
        ring
      rw [h2, Int.fract_sub_int]
    rw [h1, ih (a + DAY_SPEED)]
    congr 1
    push_cast
    ring

set_option maxRecDepth 10000 in
theorem clockStepF_chunk1 : clockStepF^[100] 0 = 461168601842739136 := by decide

set_option maxRecDepth 10000 in
theorem clockStepF_chunk2 :
    clockStepF^[100] 461168601842739136 = 922337203685478272 := by decide

set_option maxRecDepth 10000 in
theorem clockStepF_chunk3 :
    clockStepF^[100] 922337203685478272 = 1383505805528217344 := by decide

set_option maxRecDepth 10000 in
theorem clockStepF_chunk4 :
    clockStepF^[100] 1383505805528217344 = 1844674407370956544 := by decide

set_option maxRecDepth 10000 in
theorem clockStepF_chunk5 :
    clockStepF^[100] 1844674407370956544 = 2305843009213695488 := by decide

set_option maxRecDepth 10000 in
theorem clockStepF_chunk6 :
    clockStepF^[100] 2305843009213695488 = 2767011611056434688 := by decide

set_option maxRecDepth 10000 in
theorem clockStepF_chunk7 :
    clockStepF^[100] 2767011611056434688 = 3228180212899173888 := by decide

set_option maxRecDepth 10000 in
theorem clockStepF_chunk8 :
    clockStepF^[100] 3228180212899173888 = 3689348814741913088 := by decide

set_option maxRecDepth 10000 in
theorem clockStepF_chunk9 :
    clockStepF^[100] 3689348814741913088 = 4150517416584652288 := by decide

set_option maxRecDepth 10000 in
theorem clockStepF_chunk10 :
    clockStepF^[100] 4150517416584652288 = 3072 := by decide

theorem clockStepF_1000 : clockStepF^[1000] 0 = 3072 := by
  have h : (1000 : Nat) =
      100 + (100 + (100 + (100 + (100 + (100 + (100 + (100 + (100 + 100)))))))) := rfl
  rw [h, Function.iterate_add_apply, Function.iterate_add_apply,
    Function.iterate_add_apply, Function.iterate_add_apply,
    Function.iterate_add_apply, Function.iterate_add_apply,
    Function.iterate_add_apply, Function.iterate_add_apply,
    Function.iterate_add_apply]
  rw [clockStepF_chunk1, clockStepF_chunk2, clockStepF_chunk3, clockStepF_chunk4,
    clockStepF_chunk5, clockStepF_chunk6, clockStepF_chunk7, clockStepF_chunk8,
    clockStepF_chunk9, clockStepF_chunk10]

/-- C9 counterexample: under the program's actual binary64 arithmetic
(`clockStepF`, bit-exact on the `2^(-62)` scale) the clock started at
`0.0` reads `3072 * 2^(-62) ≈ 6.66 * 10^(-16)` — not `0.0` — after
exactly `1000` ticks, so the daylight factor is evaluated at a different
clock value and "returns to its initial value after exactly
`1/increment` ticks" fails on the program; exact periodicity is an
artifact of idealizing `0.001` to `1/1000`. -/
theorem daylight_period_counterexample :
    clockStepF^[1000] 0 = 3072 ∧ clockStepF^[1000] 0 ≠ 0 := by
  refine ⟨clockStepF_1000, ?_⟩
  rw [clockStepF_1000]
  decide

/-- C9 amended: the daylight factor `(sin(2π·clock)+1)/2` always lies in
`[0, 1]` (granting only that the sine oracle ranges over `[-1, 1]`); the
clock advanced by the exact increment `1/1000` modulo one would return
to its initial value after exactly `1000` ticks, but under the program's
IEEE-754 double semantics the clock accumulates rounding and after those
`1000` ticks reads `3072 * 2^(-62)` instead of its initial `0.0`, so the
program's daylight factor does not return exactly. -/
theorem daylight_range_and_period (L : PyLib S) (t : Rat)
    (hsin : ∀ u : Rat, -1 ≤ L.sin2pi u ∧ L.sin2pi u ≤ 1)
    (ht : 0 ≤ t ∧ t < 1) :
    (0 ≤ daylightOf L t ∧ daylightOf L t ≤ 1) ∧
    clockStep^[1000] t = t ∧
    (clockStepF^[1000] 0 = 3072 ∧ clockStepF^[1000] 0 ≠ 0) := by
  have hper : clockStep^[1000] t = t := by
    have hself : Int.fract t = t := Int.fract_eq_self.mpr ⟨ht.1, ht.2⟩
    have h1 := clockStep_iter 1000 t
    rw [hself] at h1
    rw [h1]
    have h2 : t + (1000 : Nat) * DAY_SPEED = t + ((1 : Int) : Rat) := by
      norm_num [DAY_SPEED]
    rw [h2, Int.fract_add_int, hself]
  refine ⟨⟨?_, ?_⟩, hper, clockStepF_1000, by rw [clockStepF_1000]; decide⟩
  · have h1 := (hsin t).1
    unfold daylightOf
    linarith
  · have h1 := (hsin t).2
    unfold daylightOf
    linarith

/-- Witness for the C9 amended theorem at clock `0` with the zero sine
oracle. -/
theorem daylight_range_and_period_witness :
    (0 ≤ daylightOf demoLib 0 ∧ daylightOf demoLib 0 ≤ 1) ∧
    clockStep^[1000] (0 : Rat) = 0 ∧
    (clockStepF^[1000] 0 = 3072 ∧ clockStepF^[1000] 0 ≠ 0) :=
  daylight_range_and_period demoLib 0
    (fun u => by constructor <;> norm_num [demoLib])
    (by norm_num)

theorem bump_apply (inv : Kind → Int) (a k : Kind) :
    (if a = Kind.gun then updInv (updInv inv a 1) Kind.ammo 5 else updInv inv a 1) k
    = inv k + (if k = a then 1 else 0)
      + (if a = Kind.gun ∧ k = Kind.ammo then 5 else 0) := by
  cases a <;> cases k <;> simp [updInv]

theorem pickup_fold_spec (r : Rect) (its : List Item) :
    ∀ (inv : Kind → Int) (done : List Item),
      (its.foldl (fun (acc : (Kind → Int) × List Item) it =>
        if r.colliderect it.rect then
          ((if it.kind = Kind.gun then updInv (updInv acc.1 it.kind 1) Kind.ammo 5
            else updInv acc.1 it.kind 1), acc.2)
        else (acc.1, acc.2 ++ [it])) (inv, done)).2
        = done ++ its.filter (fun it => !(r.colliderect it.rect)) ∧
      ∀ k, (its.foldl (fun (acc : (Kind → Int) × List Item) it =>
        if r.colliderect it.rect then
          ((if it.kind = Kind.gun then updInv (updInv acc.1 it.kind 1) Kind.ammo 5
            else updInv acc.1 it.kind 1), acc.2)
        else (acc.1, acc.2 ++ [it])) (inv, done)).1 k
        = inv k
          + (its.countP (fun it => r.colliderect it.rect && (it.kind == k)) : Int)
          + (if k = Kind.ammo then
              5 * (its.countP (fun it => r.colliderect it.rect && (it.kind == Kind.gun)) : Int)
            else 0) := by
  induction its with
  | nil =>
    intro inv done
    constructor
    · simp
    · intro k
      simp
  | cons it its ih =>
    intro inv done
    by_cases hc : r.colliderect it.rect
    · constructor
      · have h1 := (ih ((if it.kind = Kind.gun then updInv (updInv inv it.kind 1) Kind.ammo 5
           else updInv inv it.kind 1)) done).1
        simp only [List.foldl_cons, if_pos hc]
        rw [h1]
        simp [hc]
      · intro k
        have h2 := (ih ((if it.kind = Kind.gun then updInv (updInv inv it.kind 1) Kind.ammo 5
           else updInv inv it.kind 1)) done).2 k
        simp only [List.foldl_cons, if_pos hc]
        rw [h2, bump_apply inv it.kind k]
        rw [List.countP_cons, List.countP_cons]
        simp only [hc, Bool.true_and, beq_iff_eq]
        cases hik : it.kind <;> cases k <;> simp <;> push_cast <;> ring
    · constructor
      · have h1 := (ih inv (done ++ [it])).1
        simp only [List.foldl_cons, if_neg hc]
        rw [h1]
        simp [hc]
      · intro k
        have h2 := (ih inv (done ++ [it])).2 k
        simp only [List.foldl_cons, if_neg hc]
        rw [h2]
        rw [List.countP_cons, List.countP_cons]
        simp [hc]

/-- C10: in the pickup resolution step an item is removed exactly when
it overlaps the player's rectangle; each collected item adds one to the
count of its kind, and a collected gun additionally grants five
ammunition — the surviving items are exactly the non-overlapping ones. -/
theorem pickup_contract (p : PlayerSt) (its : List Item) :
    (pickupStep p its).2 = its.filter (fun it => !(p.rect.colliderect it.rect)) ∧
    ∀ k, (pickupStep p its).1.inventory k =
      p.inventory k
        + (its.countP (fun it => p.rect.colliderect it.rect && (it.kind == k)) : Int)
        + (if k = Kind.ammo then
            5 * (its.countP (fun it => p.rect.colliderect it.rect && (it.kind == Kind.gun)) : Int)
          else 0) := by
  have h := pickup_fold_spec p.rect its p.inventory []
  exact ⟨by simpa using h.1, fun k => by simpa using h.2 k⟩

/-- Witness for C7 on a closed state holding one gun and one round. -/
theorem fire_contract_witness :
    0 ≤ fireState.player.inventory Kind.ammo ∧
    ((fireEvent demoLib 500 300 fireState).bullets.length =
        fireState.bullets.length + 1 ↔
      (fireState.player.inventory Kind.gun > 0 ∧
       fireState.player.inventory Kind.ammo > 0)) ∧
    0 ≤ (fireEvent demoLib 500 300 fireState).player.inventory Kind.ammo :=
  ⟨by decide,
   (fire_contract demoLib 500 300 fireState (by decide)).2.2.1,
   (fire_contract demoLib 500 300 fireState (by decide)).2.2.2⟩

end Spiele
